import Mathlib

set_option linter.unusedTactic false

/-!
Verification of the anonymous campus rumor system backend (`src/server.js`,
schema in the repository's SQL file).  The relational store is embedded as a
Lean structure of lists mirroring the tables; each Express handler's core
logic (after JSON plumbing) is translated into a pure function on that state.
Machine floats are modelled by exact rationals; `Math.round(x * 10) / 10` is
modelled by `round1`.  Signature verification (tweetnacl) is an external
capability and is passed in as a boolean oracle; wall-clock time is an `Int`
millisecond timestamp.  The append-only `audit_log` table is not modelled: no
handler reads it and no property here depends on it.
-/

/-- A row of the `users` table: public key and registration time (ms). -/
structure User where
  publicKey : String
  createdAt : Int
deriving DecidableEq, Repr

/-- A row of the `rumors` table (content/category omitted: no modelled logic
reads them). -/
structure Rumor where
  id : Nat
  creator : String
  deadline : Int
deriving DecidableEq, Repr

/-- A row of the `votes` table. -/
structure Vote where
  rumorId : Nat
  voter : String
  value : Bool
deriving DecidableEq, Repr

/-- A row of the `finalized_scores` table. -/
structure FinalizedScore where
  rumorId : Nat
  trustScore : ℚ
  totalVotes : Nat
  outcome : Bool
deriving DecidableEq, Repr

/-- A row of the `reputation_cache` table. -/
structure CacheEntry where
  publicKey : String
  reputation : ℚ
  lastCalculatedAt : Int
deriving DecidableEq, Repr

/-- A row of the `reputation_penalties` table (reason text and timestamp
omitted: only `public_key` and `penalty` are ever read back). -/
structure Penalty where
  publicKey : String
  penalty : ℚ
deriving DecidableEq, Repr

/-- The database state: one list per table. -/
structure State where
  users : List User
  rumors : List Rumor
  votes : List Vote
  finalized : List FinalizedScore
  cache : List CacheEntry
  penalties : List Penalty
deriving DecidableEq, Repr

/-- `SELECT ... FROM users WHERE public_key = pk`. -/
def findUser (st : State) (pk : String) : Option User :=
  st.users.find? (fun u => u.publicKey == pk)

/-- `SELECT ... FROM rumors WHERE id = i`. -/
def findRumor (st : State) (i : Nat) : Option Rumor :=
  st.rumors.find? (fun r => r.id == i)

/-- `SELECT ... FROM finalized_scores WHERE rumor_id = i`. -/
def lookupFin (st : State) (i : Nat) : Option FinalizedScore :=
  st.finalized.find? (fun f => f.rumorId == i)

/-- `SELECT ... FROM reputation_cache WHERE public_key = pk`. -/
def lookupCache (st : State) (pk : String) : Option CacheEntry :=
  st.cache.find? (fun e => e.publicKey == pk)

/-- `SELECT 1 FROM votes WHERE rumor_id = i AND voter_public_key = pk`
returned a row. -/
def hasVoted (st : State) (i : Nat) (pk : String) : Bool :=
  st.votes.any (fun v => v.rumorId == i && v.voter == pk)

/-- `Math.round(q * 10) / 10`: round to one decimal place (JS `Math.round`
rounds halves toward positive infinity, exactly Mathlib's `round`). -/
def round1 (q : ℚ) : ℚ :=
  ((round (q * 10) : ℤ) : ℚ) / 10

/-- `isPastProbation` from `server.js`: at least 60 seconds since
registration. -/
def isPastProbation (createdAt now : Int) : Bool :=
  decide (now - createdAt ≥ 60 * 1000)

/-- The `for` loop of the score endpoint: count true and false votes. -/
def countVotes : List Vote → Nat × Nat
  | [] => (0, 0)
  | v :: rest =>
      let p := countVotes rest
      if v.value then (p.1 + 1, p.2) else (p.1, p.2 + 1)

/-- Result of `GET /api/rumors/:id/score`. -/
inductive ScoreResult where
  | ok (trustScore : ℚ) (voteCount : Nat) (finalized : Bool)
  | mustVoteFirst
deriving DecidableEq, Repr

/-- `GET /api/rumors/:id/score` from `server.js`: finalized rows are returned
as stored; otherwise the vote-to-see check runs, then the unweighted
proportion of true votes (50 with no votes), rounded to one decimal. -/
def getTrustScore (st : State) (i : Nat) (requesting : Option String) : ScoreResult :=
  match lookupFin st i with
  | some f => .ok f.trustScore f.totalVotes true
  | none =>
      let denied := match requesting with
        | some pk => !hasVoted st i pk
        | none => false
      if denied then .mustVoteFirst
      else
        let vs := st.votes.filter (fun v => v.rumorId == i)
        let c := countVotes vs
        let total := c.1 + c.2
        let score : ℚ := if total > 0 then ((c.1 : ℚ) / (total : ℚ)) * 100 else 50
        .ok (round1 score) vs.length false

/-- The join `votes v JOIN finalized_scores f ON v.rumor_id = f.rumor_id
WHERE v.voter_public_key = pk`, as (vote value, finalized outcome) pairs. -/
def finalizedVotes (st : State) (pk : String) : List (Bool × Bool) :=
  st.votes.filterMap fun v =>
    if v.voter == pk then (lookupFin st v.rumorId).map (fun f => (v.value, f.outcome))
    else none

/-- The join `rumors r JOIN finalized_scores f ON r.id = f.rumor_id WHERE
r.creator_public_key = pk`, as the list of finalized outcomes. -/
def createdOutcomes (st : State) (pk : String) : List Bool :=
  st.rumors.filterMap fun r =>
    if r.creator == pk then (lookupFin st r.id).map (fun f => f.outcome)
    else none

/-- Step 1 of `getReputationAtTime`: the voter loop, +0.1 for a vote matching
the finalized outcome, -0.1 otherwise. -/
def voteRepFold : List (Bool × Bool) → ℚ
  | [] => 0
  | p :: rest => (if p.1 == p.2 then (1 : ℚ) / 10 else -(1 / 10)) + voteRepFold rest

/-- Step 2 of `getReputationAtTime`: the creator loop, +0.2 for a finalized
created rumor with outcome true, -0.2 otherwise. -/
def creatorRepFold : List Bool → ℚ
  | [] => 0
  | o :: rest => (if o then (2 : ℚ) / 10 else -(2 / 10)) + creatorRepFold rest

/-- `SELECT COALESCE(SUM(penalty), 0) FROM reputation_penalties WHERE
public_key = pk`. -/
def penaltySum (st : State) (pk : String) : ℚ :=
  ((st.penalties.filter (fun p => p.publicKey == pk)).map Penalty.penalty).sum

/-- The recomputation branch of `getReputationAtTime`: vote and creator loops,
round to one decimal, then add the penalty sum and round again. -/
def recomputedRep (st : State) (pk : String) : ℚ :=
  round1 (round1 (voteRepFold (finalizedVotes st pk) + creatorRepFold (createdOutcomes st pk))
    + penaltySum st pk)

/-- The cache upsert `INSERT ... ON CONFLICT (public_key) DO UPDATE`. -/
def upsertCache (st : State) (pk : String) (rep : ℚ) (now : Int) : State :=
  { st with cache := ⟨pk, rep, now⟩ :: st.cache.filter (fun e => e.publicKey != pk) }

/-- The cache guard of `getReputationAtTime`: a cached row exists and is less
than one minute old. -/
def cacheFresh (st : State) (pk : String) (now : Int) : Bool :=
  match lookupCache st pk with
  | some e => decide (now - e.lastCalculatedAt < 60 * 1000)
  | none => false

/-- `getReputationAtTime` from `server.js`: return the cached value if fresh,
otherwise recompute from finalized votes, created rumors and penalties, and
upsert the cache.  Returns the reputation and the possibly updated state. -/
def getReputationAtTime (st : State) (pk : String) (now : Int) : ℚ × State :=
  match lookupCache st pk with
  | some e =>
      if now - e.lastCalculatedAt < 60 * 1000 then (e.reputation, st)
      else
        let rep := recomputedRep st pk
        (rep, upsertCache st pk rep now)
  | none =>
      let rep := recomputedRep st pk
      (rep, upsertCache st pk rep now)

/-- Result of `POST /api/vote`, one constructor per early return. -/
inductive VoteResult where
  | success
  | invalidSignature
  | userNotFound
  | probation
  | rumorNotFound
  | votingClosed
  | alreadyVoted
deriving DecidableEq, Repr

/-- `POST /api/vote` from `server.js`: signature, user existence, probation,
rumor existence, deadline and duplicate checks in source order, then the vote
insert.  `sigValid` is the outcome of the external `verifySignature` call. -/
def submitVote (st : State) (rumorId : Nat) (voter : String) (value : Bool)
    (sigValid : Bool) (now : Int) : VoteResult × State :=
  if !sigValid then (.invalidSignature, st)
  else
    match findUser st voter with
    | none => (.userNotFound, st)
    | some u =>
        if !isPastProbation u.createdAt now then (.probation, st)
        else
          match findRumor st rumorId with
          | none => (.rumorNotFound, st)
          | some r =>
              if now > r.deadline then (.votingClosed, st)
              else if hasVoted st rumorId voter then (.alreadyVoted, st)
              else (.success, { st with votes := st.votes ++ [⟨rumorId, voter, value⟩] })

/-- `DELETE FROM reputation_cache WHERE public_key = pk`. -/
def delCache (st : State) (pk : String) : State :=
  { st with cache := st.cache.filter (fun e => e.publicKey != pk) }

/-- `DELETE FROM reputation_cache WHERE public_key = ANY(keys)`. -/
def delCacheMany (st : State) (keys : List String) : State :=
  { st with cache := st.cache.filter (fun e => !keys.contains e.publicKey) }

/-- The distinct voters on a rumor
(`SELECT DISTINCT voter_public_key FROM votes WHERE rumor_id = i`). -/
def votersOf (st : State) (i : Nat) : List String :=
  ((st.votes.filter (fun v => v.rumorId == i)).map Vote.voter).dedup

/-- The finalized row the sweep computes for one rumor from the vote table:
count votes, derive the score (unrounded, exactly as stored by the `INSERT`)
and the outcome `trueCount >= falseCount`. -/
def finRow (votes : List Vote) (r : Rumor) : FinalizedScore :=
  let vs := votes.filter (fun v => v.rumorId == r.id)
  let c := countVotes vs
  let total := c.1 + c.2
  let score : ℚ := if total > 0 then ((c.1 : ℚ) / (total : ℚ)) * 100 else 50
  ⟨r.id, score, vs.length, decide (c.1 ≥ c.2)⟩

/-- The per-rumor body of the finalization sweep, with its store operations
in source order and an explicit failure point.  For each rumor the loop body
awaits the votes SELECT (a read), then the finalized-score INSERT (write 0),
then the reputation-cache DELETE for all voters and the creator (write 1),
then the audit-log INSERT (write 2; the audit table itself is not modelled,
so that write changes no modelled state).  Nothing is wrapped in a
transaction, so when write k throws, every earlier write stays applied;
`failAt = some 0` also covers the votes SELECT failing (no write applied
yet). -/
def finalizeRumorGo (st : State) (r : Rumor) (failAt : Option Nat) : State :=
  let vs := st.votes.filter (fun v => v.rumorId == r.id)
  let affected :=
    let ks := vs.map Vote.voter
    if ks.contains r.creator then ks else ks ++ [r.creator]
  if failAt == some 0 then st else
  let st1 := { st with finalized := finRow st.votes r :: st.finalized }
  if failAt == some 1 then st1 else
  delCacheMany st1 affected

/-- Failure-free processing of one rumor: insert the finalized row and
delete the cache rows of all voters and of the creator. -/
def finalizeRumor (st : State) (r : Rumor) : State :=
  finalizeRumorGo st r none

/-- `SELECT id, creator_public_key FROM rumors WHERE deadline < NOW() AND id
NOT IN (SELECT rumor_id FROM finalized_scores)`. -/
def selectExpired (st : State) (now : Int) : List Rumor :=
  st.rumors.filter (fun r => decide (r.deadline < now) && (lookupFin st r.id).isNone)

/-- The sweep loop over the selected rumors.  `fails r.id = some k` means
write k of that rumor's processing throws.  The loop body in `server.js`
has no try/catch, so the exception escapes `finalizeExpiredRumors`: the
failing rumor keeps exactly the writes made before write k, and the
remaining rumors are not processed. -/
def sweepGo (fails : Nat → Option Nat) : State → List Rumor → State
  | st, [] => st
  | st, r :: rest =>
      match fails r.id with
      | some k => finalizeRumorGo st r (some k)
      | none => sweepGo fails (finalizeRumor st r) rest

/-- `finalizeExpiredRumors` from `server.js` with no store failure. -/
def finalizeExpiredRumors (st : State) (now : Int) : State :=
  sweepGo (fun _ => none) st (selectExpired st now)

/-- `finalizeExpiredRumors` under the failure oracle `fails`. -/
def finalizeSweepFailing (st : State) (now : Int) (fails : Nat → Option Nat) : State :=
  sweepGo fails st (selectExpired st now)

/-- `INSERT INTO reputation_penalties (public_key, penalty, ...)`. -/
def addPenalty (st : State) (pk : String) (q : ℚ) : State :=
  { st with penalties := st.penalties ++ [⟨pk, q⟩] }

/-- The write sequence of `DELETE /api/rumors/:id` after the authorization
checks, in source order.  Each `db.query` is one numbered write; `failAt =
some k` models the k-th write throwing (there is no transaction in the
source, so the handler's catch block leaves every earlier write applied).
`wasFinalized` and the outcome are captured before any deletion, as in the
source.  Write 0 deletes the rumor row (votes cascade with it), write 1
deletes the finalized row, write 2 deletes the voters' cache rows; on the
finalized-false branch write 3 deletes the creator's cache row, write 4 is
the `getReputationAtTime` call (which upserts the cache), write 5 stores the
penalized value in the cache and write 6 inserts the permanent penalty row;
otherwise write 3 deletes the creator's cache row. -/
def deleteClaimGo (st : State) (i : Nat) (creator : String) (now : Int)
    (failAt : Option Nat) : State :=
  let wasFinalized := (lookupFin st i).isSome
  let outcome := (lookupFin st i).map FinalizedScore.outcome
  let voters := votersOf st i
  if failAt == some 0 then st else
  let st1 := { st with rumors := st.rumors.filter (fun r => r.id != i),
                       votes := st.votes.filter (fun v => v.rumorId != i) }
  if failAt == some 1 then st1 else
  let st2 := { st1 with finalized := st1.finalized.filter (fun f => f.rumorId != i) }
  if failAt == some 2 then st2 else
  let st3 := delCacheMany st2 voters
  if wasFinalized && outcome == some false then
    if failAt == some 3 then st3 else
    let st4 := delCache st3 creator
    if failAt == some 4 then st4 else
    let fresh := getReputationAtTime st4 creator now
    if failAt == some 5 then fresh.2 else
    let st6 := upsertCache fresh.2 creator (round1 (fresh.1 - 2 / 10)) now
    if failAt == some 6 then st6 else
    addPenalty st6 creator (-(2 / 10))
  else
    if failAt == some 3 then st3 else
    delCache st3 creator

/-- Result of `DELETE /api/rumors/:id`. -/
inductive DeleteResult where
  | ok (st : State)
  | invalidSignature
  | rumorNotFound
  | unauthorized
deriving Repr

/-- `DELETE /api/rumors/:id` from `server.js`: signature, existence and
creator checks, then the failure-free write sequence. -/
def deleteClaim (st : State) (i : Nat) (requester : String) (sigValid : Bool)
    (now : Int) : DeleteResult :=
  if !sigValid then .invalidSignature
  else
    match findRumor st i with
    | none => .rumorNotFound
    | some r =>
        if r.creator != requester then .unauthorized
        else .ok (deleteClaimGo st i requester now none)

/-- `POST /api/admin/reset-finalized` from `server.js`: with the hard-coded
admin key, delete every `finalized_scores` row and every `reputation_cache`
row; otherwise change nothing. -/
def adminResetFinalized (st : State) (adminKey : String) : State :=
  if adminKey == "reset-2026-feb" then { st with finalized := [], cache := [] }
  else st

/-- Modelled from the spec: the reputation-weighted trust score of §4.2 of
the specification (each voter's weight is its current reputation if positive
and 1 otherwise; score is the true-weight share of 0–100, 50 with no votes,
rounded to one decimal).  The running server computes an unweighted score;
this definition follows the spec's words for comparison. -/
def specWeightedTrustScore (st : State) (i : Nat) (now : Int) : ℚ :=
  let vs := st.votes.filter (fun v => v.rumorId == i)
  let weightOf : Vote → ℚ := fun v =>
    let rep := (getReputationAtTime st v.voter now).1
    if rep > 0 then rep else 1
  let trueWeight := ((vs.filter (fun v => v.value)).map weightOf).sum
  let falseWeight := ((vs.filter (fun v => !v.value)).map weightOf).sum
  let total := trueWeight + falseWeight
  round1 (if total > 0 then trueWeight / total * 100 else 50)

/-- Claim-side count: number of true votes on a rumor. -/
def trueVotes (st : State) (i : Nat) : Nat :=
  (st.votes.filter (fun v => v.rumorId == i)).countP (fun v => v.value)

/-- Claim-side count: number of false votes on a rumor. -/
def falseVotes (st : State) (i : Nat) : Nat :=
  (st.votes.filter (fun v => v.rumorId == i)).countP (fun v => !v.value)

/-- Claim-side count: votes by an identity agreeing with their claim's
finalized outcome. -/
def agreeCount (st : State) (pk : String) : Nat :=
  (finalizedVotes st pk).countP (fun p => p.1 == p.2)

/-- Claim-side count: votes by an identity disagreeing with their claim's
finalized outcome. -/
def disagreeCount (st : State) (pk : String) : Nat :=
  (finalizedVotes st pk).countP (fun p => p.1 != p.2)

/-- Claim-side count: finalized claims created by an identity with outcome
true. -/
def trueCreated (st : State) (pk : String) : Nat :=
  (createdOutcomes st pk).countP (fun o => o)

/-- Claim-side count: finalized claims created by an identity with outcome
false. -/
def falseCreated (st : State) (pk : String) : Nat :=
  (createdOutcomes st pk).countP (fun o => !o)

/-- The pre-penalty recomputed reputation, rounded: the code's value after
its first rounding step. -/
def baseRep (st : State) (pk : String) : ℚ :=
  round1 (voteRepFold (finalizedVotes st pk) + creatorRepFold (createdOutcomes st pk))

-- ==================== HELPER LEMMAS ====================

theorem round1_int_div_ten (n : ℤ) : round1 ((n : ℚ) / 10) = (n : ℚ) / 10 := by
  unfold round1
  rw [div_mul_cancel₀ _ (by norm_num : (10 : ℚ) ≠ 0), round_intCast]

theorem round1_eval (q : ℚ) (n : ℤ) (h1 : (n : ℚ) ≤ q * 10 + 1 / 2)
    (h2 : q * 10 + 1 / 2 < (n : ℚ) + 1) : round1 q = (n : ℚ) / 10 := by
  unfold round1
  rw [round_eq]
  congr 1
  exact_mod_cast Int.floor_eq_iff.mpr ⟨h1, h2⟩

theorem countVotes_eq (l : List Vote) :
    countVotes l = (l.countP (fun v => v.value), l.countP (fun v => !v.value)) := by
  induction l with
  | nil => rfl
  | cons v rest ih =>
      simp only [countVotes, ih, List.countP_cons]
      cases hv : v.value <;> simp [hv]

theorem voteRepFold_eq (l : List (Bool × Bool)) :
    voteRepFold l =
      ((l.countP (fun p => p.1 == p.2) : ℚ) - (l.countP (fun p => p.1 != p.2) : ℚ)) / 10 := by
  induction l with
  | nil => simp [voteRepFold]
  | cons p rest ih =>
      simp only [voteRepFold, ih, List.countP_cons]
      cases hp : (p.1 == p.2) <;> simp [hp, bne] <;> push_cast <;> ring

theorem creatorRepFold_eq (l : List Bool) :
    creatorRepFold l =
      (2 * (l.countP (fun o => o) : ℚ) - 2 * (l.countP (fun o => !o) : ℚ)) / 10 := by
  induction l with
  | nil => simp [creatorRepFold]
  | cons o rest ih =>
      simp only [creatorRepFold, ih, List.countP_cons]
      cases ho : o <;> simp [ho] <;> push_cast <;> ring

theorem rawRep_eq_int_div_ten (st : State) (pk : String) :
    voteRepFold (finalizedVotes st pk) + creatorRepFold (createdOutcomes st pk) =
      (((agreeCount st pk : ℤ) - disagreeCount st pk
        + 2 * trueCreated st pk - 2 * falseCreated st pk : ℤ) : ℚ) / 10 := by
  rw [voteRepFold_eq, creatorRepFold_eq]
  unfold agreeCount disagreeCount trueCreated falseCreated
  push_cast
  ring

theorem round1_raw_eq_raw (st : State) (pk : String) :
    round1 (voteRepFold (finalizedVotes st pk) + creatorRepFold (createdOutcomes st pk)) =
      voteRepFold (finalizedVotes st pk) + creatorRepFold (createdOutcomes st pk) := by
  rw [rawRep_eq_int_div_ten, round1_int_div_ten]

theorem baseRep_eq_int_div_ten (st : State) (pk : String) :
    baseRep st pk =
      (((agreeCount st pk : ℤ) - disagreeCount st pk
        + 2 * trueCreated st pk - 2 * falseCreated st pk : ℤ) : ℚ) / 10 := by
  rw [baseRep, round1_raw_eq_raw, rawRep_eq_int_div_ten]

theorem recomputedRep_eq_round1_base_add (st : State) (pk : String) :
    recomputedRep st pk = round1 (baseRep st pk + penaltySum st pk) := rfl

theorem round1_int_div_ten_add_int_div_ten (n m : ℤ) :
    round1 ((n : ℚ) / 10 + (m : ℚ) / 10) = (n : ℚ) / 10 + (m : ℚ) / 10 := by
  have h : (n : ℚ) / 10 + (m : ℚ) / 10 = ((n + m : ℤ) : ℚ) / 10 := by push_cast; ring
  rw [h, round1_int_div_ten]

theorem round1_base_add_tenth (x p : ℚ) (n m : ℤ) (hx : x = (n : ℚ) / 10)
    (hp : p = (m : ℚ) / 10) : round1 (x + p) = x + p := by
  rw [hx, hp, round1_int_div_ten_add_int_div_ten]

-- ==================== STATE-PRESERVATION LEMMAS ====================

theorem submitVote_penalties (st : State) (i : Nat) (pk : String) (v s : Bool) (now : Int) :
    ((submitVote st i pk v s now).2).penalties = st.penalties := by
  unfold submitVote
  split
  · rfl
  · split
    · rfl
    · split
      · rfl
      · split
        · rfl
        · split
          · rfl
          · split
            · rfl
            · rfl

theorem submitVote_finalized (st : State) (i : Nat) (pk : String) (v s : Bool) (now : Int) :
    ((submitVote st i pk v s now).2).finalized = st.finalized := by
  unfold submitVote
  split
  · rfl
  · split
    · rfl
    · split
      · rfl
      · split
        · rfl
        · split
          · rfl
          · split
            · rfl
            · rfl

theorem getReputationAtTime_penalties (st : State) (pk : String) (now : Int) :
    ((getReputationAtTime st pk now).2).penalties = st.penalties := by
  unfold getReputationAtTime
  split
  · split
    · rfl
    · rfl
  · rfl

theorem getReputationAtTime_finalized (st : State) (pk : String) (now : Int) :
    ((getReputationAtTime st pk now).2).finalized = st.finalized := by
  unfold getReputationAtTime
  split
  · split
    · rfl
    · rfl
  · rfl

theorem finalizeRumorGo_penalties (st : State) (r : Rumor) (failAt : Option Nat) :
    (finalizeRumorGo st r failAt).penalties = st.penalties := by
  unfold finalizeRumorGo
  split
  · rfl
  · split
    · rfl
    · rfl

theorem finalizeRumorGo_votes (st : State) (r : Rumor) (failAt : Option Nat) :
    (finalizeRumorGo st r failAt).votes = st.votes := by
  unfold finalizeRumorGo
  split
  · rfl
  · split
    · rfl
    · rfl

theorem finalizeRumorGo_rumors (st : State) (r : Rumor) (failAt : Option Nat) :
    (finalizeRumorGo st r failAt).rumors = st.rumors := by
  unfold finalizeRumorGo
  split
  · rfl
  · split
    · rfl
    · rfl

theorem finalizeRumor_penalties (st : State) (r : Rumor) :
    (finalizeRumor st r).penalties = st.penalties :=
  finalizeRumorGo_penalties st r none

theorem finalizeRumor_votes (st : State) (r : Rumor) :
    (finalizeRumor st r).votes = st.votes :=
  finalizeRumorGo_votes st r none

theorem finalizeRumor_rumors (st : State) (r : Rumor) :
    (finalizeRumor st r).rumors = st.rumors :=
  finalizeRumorGo_rumors st r none

theorem sweepGo_penalties (fails : Nat → Option Nat) (l : List Rumor) :
    ∀ st : State, (sweepGo fails st l).penalties = st.penalties := by
  induction l with
  | nil => intro st; rfl
  | cons r rest ih =>
      intro st
      unfold sweepGo
      split
      · exact finalizeRumorGo_penalties st r _
      · rw [ih, finalizeRumor_penalties]

theorem sweepGo_votes (fails : Nat → Option Nat) (l : List Rumor) :
    ∀ st : State, (sweepGo fails st l).votes = st.votes := by
  induction l with
  | nil => intro st; rfl
  | cons r rest ih =>
      intro st
      unfold sweepGo
      split
      · exact finalizeRumorGo_votes st r _
      · rw [ih, finalizeRumor_votes]

theorem sweepGo_rumors (fails : Nat → Option Nat) (l : List Rumor) :
    ∀ st : State, (sweepGo fails st l).rumors = st.rumors := by
  induction l with
  | nil => intro st; rfl
  | cons r rest ih =>
      intro st
      unfold sweepGo
      split
      · exact finalizeRumorGo_rumors st r _
      · rw [ih, finalizeRumor_rumors]

theorem adminResetFinalized_penalties (st : State) (key : String) :
    (adminResetFinalized st key).penalties = st.penalties := by
  unfold adminResetFinalized
  split
  · rfl
  · rfl

theorem find?_filter_of_imp {α : Type} (p q : α → Bool) (l : List α)
    (h : ∀ x, p x = true → q x = true) : (l.filter q).find? p = l.find? p := by
  induction l with
  | nil => rfl
  | cons a rest ih =>
      by_cases hq : q a = true
      · rw [List.filter_cons_of_pos hq]
        by_cases hp : p a = true
        · rw [List.find?_cons_of_pos _ hp, List.find?_cons_of_pos _ hp]
        · rw [List.find?_cons_of_neg _ (by simp [hp]), List.find?_cons_of_neg _ (by simp [hp]), ih]
      · have hp : ¬ p a = true := fun hpa => hq (h a hpa)
        rw [List.filter_cons_of_neg (by simp [hq]), List.find?_cons_of_neg _ (by simp [hp]), ih]

/-- Prepending a finalized row for a different rumor id does not change the
lookup result. -/
theorem lookupFin_cons_ne (st : State) (g : FinalizedScore) (rest : List FinalizedScore)
    (i : Nat) (hst : st.finalized = g :: rest) (hne : g.rumorId ≠ i) :
    lookupFin st i = ({ st with finalized := rest } : State).finalized.find? (fun f => f.rumorId == i) := by
  unfold lookupFin
  rw [hst]
  exact List.find?_cons_of_neg _ (by simp [hne])

theorem finRow_rumorId (votes : List Vote) (r : Rumor) : (finRow votes r).rumorId = r.id := rfl

theorem lookupFin_finalizeRumorGo_ne (st : State) (r : Rumor) (i : Nat) (failAt : Option Nat)
    (hne : r.id ≠ i) :
    lookupFin (finalizeRumorGo st r failAt) i = lookupFin st i := by
  unfold lookupFin finalizeRumorGo delCacheMany
  split
  · rfl
  · split
    · exact List.find?_cons_of_neg _ (by simp [finRow_rumorId, hne])
    · exact List.find?_cons_of_neg _ (by simp [finRow_rumorId, hne])

theorem lookupFin_finalizeRumor_ne (st : State) (r : Rumor) (i : Nat) (hne : r.id ≠ i) :
    lookupFin (finalizeRumor st r) i = lookupFin st i :=
  lookupFin_finalizeRumorGo_ne st r i none hne

theorem lookupFin_finalizeRumor_self (st : State) (r : Rumor) :
    lookupFin (finalizeRumor st r) r.id = some (finRow st.votes r) := by
  unfold lookupFin finalizeRumor finalizeRumorGo delCacheMany
  exact List.find?_cons_of_pos _ (by simp [finRow_rumorId])

/-- A sweep does not touch finalized rows of rumors it never processes. -/
theorem sweepGo_lookupFin_preserved (fails : Nat → Option Nat) (i : Nat) (l : List Rumor)
    (hl : ∀ x ∈ l, x.id ≠ i) :
    ∀ st : State, lookupFin (sweepGo fails st l) i = lookupFin st i := by
  induction l with
  | nil => intro st; rfl
  | cons r rest ih =>
      intro st
      unfold sweepGo
      split
      · exact lookupFin_finalizeRumorGo_ne st r i _ (hl r (List.mem_cons_self r rest))
      · rw [ih (fun x hx => hl x (List.mem_cons_of_mem r hx)),
          lookupFin_finalizeRumor_ne st r i (hl r (List.mem_cons_self r rest))]

/-- A sweep with no failures finalizes every rumor it processes, with the row
computed from the (sweep-invariant) vote table; distinct ids keep later
iterations from shadowing the row. -/
theorem sweepGo_lookupFin_of_mem (r : Rumor) (l : List Rumor)
    (hnd : l.Pairwise (fun a b => a.id ≠ b.id)) (hmem : r ∈ l) :
    ∀ st : State, lookupFin (sweepGo (fun _ => none) st l) r.id = some (finRow st.votes r) := by
  induction l with
  | nil => cases hmem
  | cons x rest ih =>
      intro st
      have hpw := List.pairwise_cons.mp hnd
      have hstep : sweepGo (fun _ => none) st (x :: rest) =
          sweepGo (fun _ => none) (finalizeRumor st x) rest := rfl
      rw [hstep]
      rcases List.mem_cons.mp hmem with hrx | hrrest
      · subst hrx
        rw [sweepGo_lookupFin_preserved _ _ _ (fun b hb => (hpw.1 b hb).symm),
          lookupFin_finalizeRumor_self]
      · rw [ih hpw.2 hrrest, finalizeRumor_votes]

/-- One externally triggerable state-changing operation of the server other
than deletion: vote submission, a finalization sweep (with an arbitrary
failure pattern, covering the failure-free `finalizeExpiredRumors`), a
reputation read (which may write the cache) and the admin reset endpoint.
`getTrustScore` never writes, so it needs no constructor. -/
inductive Step : State → State → Prop where
  | vote (st : State) (i : Nat) (pk : String) (v s : Bool) (now : Int) :
      Step st (submitVote st i pk v s now).2
  | sweep (st : State) (now : Int) (fails : Nat → Option Nat) :
      Step st (finalizeSweepFailing st now fails)
  | repRead (st : State) (pk : String) (now : Int) :
      Step st (getReputationAtTime st pk now).2
  | adminReset (st : State) (key : String) :
      Step st (adminResetFinalized st key)

/-- Any number of subsequent operations. -/
def Reach : State → State → Prop := Relation.ReflTransGen Step

theorem step_penalties {a b : State} (h : Step a b) : b.penalties = a.penalties := by
  cases h with
  | vote i pk v s now => exact submitVote_penalties a i pk v s now
  | sweep now fails => exact sweepGo_penalties fails _ a
  | repRead pk now => exact getReputationAtTime_penalties a pk now
  | adminReset key => exact adminResetFinalized_penalties a key

theorem reach_penalties {a b : State} (h : Reach a b) : b.penalties = a.penalties := by
  induction h with
  | refl => rfl
  | tail _ hstep ih => rw [step_penalties hstep, ih]

/-- Running the full deletion write sequence on a claim finalized with
outcome false appends exactly one -0.2 penalty row for the creator. -/
theorem deleteClaimGo_penalties_finFalse (st : State) (i : Nat) (creator : String)
    (now : Int) (f : FinalizedScore) (hfin : lookupFin st i = some f)
    (hout : f.outcome = false) :
    (deleteClaimGo st i creator now none).penalties =
      st.penalties ++ [⟨creator, -(2 / 10)⟩] := by
  unfold deleteClaimGo
  rw [hfin]
  simp [hout, addPenalty, upsertCache, delCache, delCacheMany,
    getReputationAtTime_penalties]

/-- Stopping the deletion write sequence right after the finalized-score
delete (write 1) leaves the rumor gone but the penalties table untouched. -/
theorem deleteClaimGo_stop2 (st : State) (i : Nat) (creator : String) (now : Int) :
    (deleteClaimGo st i creator now (some 2)).rumors = st.rumors.filter (fun r => r.id != i)
    ∧ (deleteClaimGo st i creator now (some 2)).votes = st.votes.filter (fun v => v.rumorId != i)
    ∧ (deleteClaimGo st i creator now (some 2)).finalized = st.finalized.filter (fun g => g.rumorId != i)
    ∧ (deleteClaimGo st i creator now (some 2)).cache = st.cache
    ∧ (deleteClaimGo st i creator now (some 2)).penalties = st.penalties := by
  unfold deleteClaimGo
  simp

/-- A sweep never finalizes a rumor whose processing fails before its
finalized-score INSERT (write 0), nor any rumor the sweep does not reach. -/
theorem sweepGo_lookupFin_none_of_fails (fails : Nat → Option Nat) (i : Nat)
    (hfi : fails i = some 0) (l : List Rumor) :
    ∀ st : State, lookupFin st i = none → lookupFin (sweepGo fails st l) i = none := by
  induction l with
  | nil => intro st h; exact h
  | cons x rest ih =>
      intro st h
      unfold sweepGo
      split
      · rename_i k hk
        by_cases hxi : x.id = i
        · have hk0 : (some k : Option Nat) = some 0 := by rw [← hk, hxi, hfi]
          have hkz : k = 0 := Option.some.inj hk0
          subst hkz
          exact h
        · rw [lookupFin_finalizeRumorGo_ne st x i _ hxi]
          exact h
      · rename_i hknone
        have hxi : x.id ≠ i := by
          intro he
          rw [he, hfi] at hknone
          exact Option.noConfusion hknone
        exact ih _ (by rw [lookupFin_finalizeRumor_ne st x i hxi]; exact h)

/-- When the first (and only) failing rumor of a sweep fails after its
finalized-score INSERT (write 1, the cache delete, or write 2, the audit
append), the sweep leaves that rumor finalized with the row computed from
the sweep-invariant vote table. -/
theorem sweepGo_lookupFin_some_of_late_fail (fails : Nat → Option Nat) (r : Rumor) (k : Nat)
    (hk : fails r.id = some k) (hkz : k ≠ 0) :
    ∀ l : List Rumor, l.Pairwise (fun a b => a.id ≠ b.id) → r ∈ l →
      (∀ x ∈ l, x.id ≠ r.id → fails x.id = none) →
      ∀ st : State, lookupFin (sweepGo fails st l) r.id = some (finRow st.votes r) := by
  intro l
  induction l with
  | nil =>
      intro _ hmem _ _
      cases hmem
  | cons x rest ih =>
      intro hpw hmem honly st
      have hpw' := List.pairwise_cons.mp hpw
      rcases List.mem_cons.mp hmem with hrx | hrrest
      · subst hrx
        unfold sweepGo
        rw [hk]
        show lookupFin (finalizeRumorGo st r (some k)) r.id = some (finRow st.votes r)
        unfold lookupFin finalizeRumorGo delCacheMany
        rw [if_neg (by simp [hkz])]
        split
        · exact List.find?_cons_of_pos _ (by simp [finRow_rumorId])
        · exact List.find?_cons_of_pos _ (by simp [finRow_rumorId])
      · have hxne : x.id ≠ r.id := hpw'.1 r hrrest
        have hxnone : fails x.id = none := honly x (List.mem_cons_self x rest) hxne
        unfold sweepGo
        rw [hxnone]
        show lookupFin (sweepGo fails (finalizeRumor st x) rest) r.id = some (finRow st.votes r)
        rw [ih hpw'.2 hrrest (fun y hy hyne => honly y (List.mem_cons_of_mem x hy) hyne)
            (finalizeRumor st x), finalizeRumor_votes]

theorem countVotes_fst_add_snd (l : List Vote) :
    (countVotes l).1 + (countVotes l).2 = l.length := by
  induction l with
  | nil => rfl
  | cons v rest ih =>
      unfold countVotes
      cases hv : v.value <;> simp [hv] <;> omega

-- ==================== CLAIM THEOREMS ====================

/-- C9: for an unfinalized claim, a score request that names an identity
which has not voted on the claim is denied with the vote-to-see error and
returns no score. -/
theorem spec_C9_vote_to_see (st : State) (i : Nat) (pk : String)
    (hfin : lookupFin st i = none) (hvote : hasVoted st i pk = false) :
    getTrustScore st i (some pk) = .mustVoteFirst := by
  unfold getTrustScore
  rw [hfin]
  simp [hvote]

/-- Concrete instance discharging the hypotheses of the C9 theorem. -/
theorem spec_C9_witness :
    lookupFin ⟨[⟨"B", 0⟩], [⟨1, "A", 100⟩], [], [], [], []⟩ 1 = none
    ∧ hasVoted ⟨[⟨"B", 0⟩], [⟨1, "A", 100⟩], [], [], [], []⟩ 1 "B" = false
    ∧ getTrustScore ⟨[⟨"B", 0⟩], [⟨1, "A", 100⟩], [], [], [], []⟩ 1 (some "B") = .mustVoteFirst :=
  ⟨by decide, by decide, spec_C9_vote_to_see _ _ _ (by decide) (by decide)⟩

/-- C10: a vote by an identity registered less than 60 seconds earlier is
rejected with the probation error and records nothing, even with a valid
signature and regardless of the claim's state. -/
theorem spec_C10_probation (st : State) (i : Nat) (pk : String) (v : Bool) (now : Int)
    (u : User) (hu : findUser st pk = some u) (hprob : now - u.createdAt < 60 * 1000) :
    (submitVote st i pk v true now).1 = .probation
    ∧ (submitVote st i pk v true now).2 = st := by
  unfold submitVote
  rw [hu]
  have h60 : now - u.createdAt < 60000 := by omega
  simp [isPastProbation, h60]

/-- Concrete instance discharging the hypotheses of the C10 theorem: a valid
signature, an open claim, no prior vote, registration 59 seconds before the
submission. -/
theorem spec_C10_witness :
    findUser ⟨[⟨"A", 0⟩], [⟨1, "A", 100000⟩], [], [], [], []⟩ "A" = some ⟨"A", 0⟩
    ∧ (59000 : Int) - (0 : Int) < 60 * 1000
    ∧ (submitVote ⟨[⟨"A", 0⟩], [⟨1, "A", 100000⟩], [], [], [], []⟩ 1 "A" true true 59000).1 = .probation
    ∧ (submitVote ⟨[⟨"A", 0⟩], [⟨1, "A", 100000⟩], [], [], [], []⟩ 1 "A" true true 59000).2 =
        ⟨[⟨"A", 0⟩], [⟨1, "A", 100000⟩], [], [], [], []⟩ := by
  refine ⟨by decide, by decide, ?_⟩
  exact spec_C10_probation _ 1 "A" true 59000 ⟨"A", 0⟩ (by decide) (by decide)

/-- C8: once a vote by an identity on a claim is stored, no further
submission by that identity on that claim ever succeeds or changes the vote
set, and a submission that passes the signature, probation and deadline
guards is rejected specifically as a duplicate. -/
theorem spec_C8_vote_uniqueness (st : State) (c : Nat) (pk : String) (v s : Bool) (now : Int)
    (h : hasVoted st c pk = true) :
    (submitVote st c pk v s now).1 ≠ .success
    ∧ (submitVote st c pk v s now).2 = st
    ∧ (s = true →
        ∀ u, findUser st pk = some u → isPastProbation u.createdAt now = true →
        ∀ r, findRumor st c = some r → ¬ now > r.deadline →
        (submitVote st c pk v s now).1 = .alreadyVoted) := by
  have key : (submitVote st c pk v s now).1 ≠ .success ∧ (submitVote st c pk v s now).2 = st := by
    unfold submitVote
    split
    · exact ⟨fun hh => VoteResult.noConfusion hh, rfl⟩
    · split
      · exact ⟨fun hh => VoteResult.noConfusion hh, rfl⟩
      · split
        · exact ⟨fun hh => VoteResult.noConfusion hh, rfl⟩
        · split
          · exact ⟨fun hh => VoteResult.noConfusion hh, rfl⟩
          · split
            · exact ⟨fun hh => VoteResult.noConfusion hh, rfl⟩
            · exact ⟨fun hh => VoteResult.noConfusion hh, rfl⟩
  refine ⟨key.1, key.2, ?_⟩
  · intro hs u hu hpast r hr hnd
    subst hs
    unfold submitVote
    rw [hu, hr]
    simp [hpast, hnd, h]

/-- Concrete instance discharging the hypotheses of the C8 theorem: identity
"A" already voted on claim 1 and tries again. -/
theorem spec_C8_witness :
    hasVoted ⟨[⟨"A", 0⟩], [⟨1, "A", 100⟩], [⟨1, "A", true⟩], [], [], []⟩ 1 "A" = true
    ∧ (submitVote ⟨[⟨"A", 0⟩], [⟨1, "A", 100⟩], [⟨1, "A", true⟩], [], [], []⟩ 1 "A" false true 90).1 ≠ .success
    ∧ (submitVote ⟨[⟨"A", 0⟩], [⟨1, "A", 100⟩], [⟨1, "A", true⟩], [], [], []⟩ 1 "A" false true 90).2 =
        ⟨[⟨"A", 0⟩], [⟨1, "A", 100⟩], [⟨1, "A", true⟩], [], [], []⟩ := by
  have hm := spec_C8_vote_uniqueness
    ⟨[⟨"A", 0⟩], [⟨1, "A", 100⟩], [⟨1, "A", true⟩], [], [], []⟩ 1 "A" false true 90 (by decide)
  exact ⟨by decide, hm.1, hm.2.1⟩

/-- C2: with an absent or stale cache entry, `getReputationAtTime` returns
the one-decimal rounding of: +0.1 per vote agreeing with its claim's
finalized outcome, -0.1 per disagreeing vote, +0.2 per finalized created
claim with outcome true, -0.2 per one with outcome false, plus the sum of
the identity's penalty rows. -/
theorem spec_C2_reputation_formula (st : State) (pk : String) (now : Int)
    (hfresh : cacheFresh st pk now = false) :
    (getReputationAtTime st pk now).1 =
      round1 ((agreeCount st pk : ℚ) / 10 - (disagreeCount st pk : ℚ) / 10
        + 2 * (trueCreated st pk : ℚ) / 10 - 2 * (falseCreated st pk : ℚ) / 10
        + penaltySum st pk) := by
  have hrec : (getReputationAtTime st pk now).1 = recomputedRep st pk := by
    unfold getReputationAtTime
    unfold cacheFresh at hfresh
    cases hc : lookupCache st pk with
    | none => rfl
    | some e =>
        rw [hc] at hfresh
        dsimp only at hfresh ⊢
        simp only [decide_eq_false_iff_not, not_lt] at hfresh
        rw [if_neg (not_lt.mpr hfresh)]
  rw [hrec, recomputedRep_eq_round1_base_add, baseRep_eq_int_div_ten]
  congr 1
  push_cast
  ring

/-- Concrete instance discharging the hypothesis of the C2 theorem: empty
cache; one agreeing vote, one disagreeing vote, one finalized created claim
with outcome true, one penalty row. -/
theorem spec_C2_witness :
    cacheFresh ⟨[⟨"A", 0⟩], [⟨1, "A", 0⟩, ⟨2, "B", 0⟩, ⟨3, "B", 0⟩],
        [⟨2, "A", true⟩, ⟨3, "A", true⟩], [⟨1, 80, 1, true⟩, ⟨2, 80, 1, true⟩, ⟨3, 20, 1, false⟩],
        [], [⟨"A", 3 / 10⟩]⟩ "A" 0 = false
    ∧ (getReputationAtTime ⟨[⟨"A", 0⟩], [⟨1, "A", 0⟩, ⟨2, "B", 0⟩, ⟨3, "B", 0⟩],
        [⟨2, "A", true⟩, ⟨3, "A", true⟩], [⟨1, 80, 1, true⟩, ⟨2, 80, 1, true⟩, ⟨3, 20, 1, false⟩],
        [], [⟨"A", 3 / 10⟩]⟩ "A" 0).1 =
      round1 ((agreeCount ⟨[⟨"A", 0⟩], [⟨1, "A", 0⟩, ⟨2, "B", 0⟩, ⟨3, "B", 0⟩],
        [⟨2, "A", true⟩, ⟨3, "A", true⟩], [⟨1, 80, 1, true⟩, ⟨2, 80, 1, true⟩, ⟨3, 20, 1, false⟩],
        [], [⟨"A", 3 / 10⟩]⟩ "A" : ℚ) / 10
        - (disagreeCount ⟨[⟨"A", 0⟩], [⟨1, "A", 0⟩, ⟨2, "B", 0⟩, ⟨3, "B", 0⟩],
        [⟨2, "A", true⟩, ⟨3, "A", true⟩], [⟨1, 80, 1, true⟩, ⟨2, 80, 1, true⟩, ⟨3, 20, 1, false⟩],
        [], [⟨"A", 3 / 10⟩]⟩ "A" : ℚ) / 10
        + 2 * (trueCreated ⟨[⟨"A", 0⟩], [⟨1, "A", 0⟩, ⟨2, "B", 0⟩, ⟨3, "B", 0⟩],
        [⟨2, "A", true⟩, ⟨3, "A", true⟩], [⟨1, 80, 1, true⟩, ⟨2, 80, 1, true⟩, ⟨3, 20, 1, false⟩],
        [], [⟨"A", 3 / 10⟩]⟩ "A" : ℚ) / 10
        - 2 * (falseCreated ⟨[⟨"A", 0⟩], [⟨1, "A", 0⟩, ⟨2, "B", 0⟩, ⟨3, "B", 0⟩],
        [⟨2, "A", true⟩, ⟨3, "A", true⟩], [⟨1, 80, 1, true⟩, ⟨2, 80, 1, true⟩, ⟨3, 20, 1, false⟩],
        [], [⟨"A", 3 / 10⟩]⟩ "A" : ℚ) / 10
        + penaltySum ⟨[⟨"A", 0⟩], [⟨1, "A", 0⟩, ⟨2, "B", 0⟩, ⟨3, "B", 0⟩],
        [⟨2, "A", true⟩, ⟨3, "A", true⟩], [⟨1, 80, 1, true⟩, ⟨2, 80, 1, true⟩, ⟨3, 20, 1, false⟩],
        [], [⟨"A", 3 / 10⟩]⟩ "A") :=
  ⟨by decide, spec_C2_reputation_formula _ "A" 0 (by decide)⟩

theorem getTrustScore_unfin_eval (st : State) (i : Nat)
    (hfin : lookupFin st i = none) (hpos : 0 < trueVotes st i + falseVotes st i) :
    getTrustScore st i none =
      .ok (round1 ((trueVotes st i : ℚ) / ((trueVotes st i + falseVotes st i : ℕ) : ℚ) * 100))
        (trueVotes st i + falseVotes st i) false := by
  unfold getTrustScore
  rw [hfin]
  have hc : countVotes (st.votes.filter (fun v => v.rumorId == i)) =
      (trueVotes st i, falseVotes st i) := by
    rw [countVotes_eq]; rfl
  have hlen : (st.votes.filter (fun v => v.rumorId == i)).length =
      trueVotes st i + falseVotes st i := by
    rw [← countVotes_fst_add_snd, hc]
  dsimp only
  rw [hc, hlen]
  rw [if_pos hpos]
  simp

/-- C1 counterexample: identity A has reputation 0 and votes TRUE on the
unfinalized claim 1, identity B has reputation 40 and votes FALSE.  The
claim asserts the returned score is the reputation-weighted 40/41*100 ≈
97.6; the server's score endpoint counts votes unweighted and returns 50
(and even the spec's own weighted formula yields 1/41*100 ≈ 2.4, not
97.6). -/
theorem spec_C1_cex :
    (getReputationAtTime ⟨[⟨"A", -100000⟩, ⟨"B", -100000⟩], [⟨1, "C", 1000⟩],
        [⟨1, "A", true⟩, ⟨1, "B", false⟩], [], [⟨"A", 0, 0⟩, ⟨"B", 40, 0⟩], []⟩ "A" 0).1 = 0
    ∧ (getReputationAtTime ⟨[⟨"A", -100000⟩, ⟨"B", -100000⟩], [⟨1, "C", 1000⟩],
        [⟨1, "A", true⟩, ⟨1, "B", false⟩], [], [⟨"A", 0, 0⟩, ⟨"B", 40, 0⟩], []⟩ "B" 0).1 = 40
    ∧ getTrustScore ⟨[⟨"A", -100000⟩, ⟨"B", -100000⟩], [⟨1, "C", 1000⟩],
        [⟨1, "A", true⟩, ⟨1, "B", false⟩], [], [⟨"A", 0, 0⟩, ⟨"B", 40, 0⟩], []⟩ 1 none =
        .ok 50 2 false
    ∧ specWeightedTrustScore ⟨[⟨"A", -100000⟩, ⟨"B", -100000⟩], [⟨1, "C", 1000⟩],
        [⟨1, "A", true⟩, ⟨1, "B", false⟩], [], [⟨"A", 0, 0⟩, ⟨"B", 40, 0⟩], []⟩ 1 0 = 24 / 10
    ∧ (50 : ℚ) ≠ 976 / 10 := by
  refine ⟨rfl, rfl, ?_, ?_, by norm_num⟩
  · rw [getTrustScore_unfin_eval _ 1 (by decide) (by decide)]
    have htv : trueVotes ⟨[⟨"A", -100000⟩, ⟨"B", -100000⟩], [⟨1, "C", 1000⟩],
        [⟨1, "A", true⟩, ⟨1, "B", false⟩], [], [⟨"A", 0, 0⟩, ⟨"B", 40, 0⟩], []⟩ 1 = 1 := by decide
    have hfv : falseVotes ⟨[⟨"A", -100000⟩, ⟨"B", -100000⟩], [⟨1, "C", 1000⟩],
        [⟨1, "A", true⟩, ⟨1, "B", false⟩], [], [⟨"A", 0, 0⟩, ⟨"B", 40, 0⟩], []⟩ 1 = 1 := by decide
    rw [htv, hfv]
    have hr : round1 (((1 : ℕ) : ℚ) / (((1 + 1 : ℕ)) : ℚ) * 100) = 50 := by
      rw [round1_eval _ 500 (by norm_num) (by norm_num)]
      norm_num
    rw [hr]
  · have hA : (getReputationAtTime ⟨[⟨"A", -100000⟩, ⟨"B", -100000⟩], [⟨1, "C", 1000⟩],
        [⟨1, "A", true⟩, ⟨1, "B", false⟩], [], [⟨"A", 0, 0⟩, ⟨"B", 40, 0⟩], []⟩ "A" 0).1 = 0 := rfl
    have hB : (getReputationAtTime ⟨[⟨"A", -100000⟩, ⟨"B", -100000⟩], [⟨1, "C", 1000⟩],
        [⟨1, "A", true⟩, ⟨1, "B", false⟩], [], [⟨"A", 0, 0⟩, ⟨"B", 40, 0⟩], []⟩ "B" 0).1 = 40 := rfl
    unfold specWeightedTrustScore
    rw [show List.filter (fun v => v.rumorId == 1)
        (⟨[⟨"A", -100000⟩, ⟨"B", -100000⟩], [⟨1, "C", 1000⟩],
          [⟨1, "A", true⟩, ⟨1, "B", false⟩], [], [⟨"A", 0, 0⟩, ⟨"B", 40, 0⟩], []⟩ : State).votes =
        [⟨1, "A", true⟩, ⟨1, "B", false⟩] from rfl]
    dsimp only
    rw [show List.filter (fun v : Vote => v.value) [⟨1, "A", true⟩, ⟨1, "B", false⟩] =
        [⟨1, "A", true⟩] from rfl]
    rw [show List.filter (fun v : Vote => !v.value) [⟨1, "A", true⟩, ⟨1, "B", false⟩] =
        [⟨1, "B", false⟩] from rfl]
    dsimp only [List.map, List.sum_cons, List.sum_nil]
    rw [hA, hB]
    norm_num
    rw [round1_eval _ 24 (by norm_num) (by norm_num)]
    norm_num

/-- C1 amended: for every unfinalized claim with at least one vote, the
score endpoint returns trueCount / (trueCount + falseCount) * 100 rounded to
one decimal, every vote counting 1 regardless of the voter's reputation,
together with the vote count and finalized=false. -/
theorem spec_C1_unweighted_score (st : State) (i : Nat)
    (hfin : lookupFin st i = none) (hpos : 0 < trueVotes st i + falseVotes st i) :
    getTrustScore st i none =
      .ok (round1 ((trueVotes st i : ℚ) / ((trueVotes st i + falseVotes st i : ℕ) : ℚ) * 100))
        (trueVotes st i + falseVotes st i) false :=
  getTrustScore_unfin_eval st i hfin hpos

/-- Concrete instance discharging the hypotheses of the amended C1 theorem:
the two-vote scenario of the claim, where the returned score is 50. -/
theorem spec_C1_witness :
    lookupFin ⟨[⟨"A", -100000⟩, ⟨"B", -100000⟩], [⟨1, "C", 1000⟩],
        [⟨1, "A", true⟩, ⟨1, "B", false⟩], [], [⟨"A", 0, 0⟩, ⟨"B", 40, 0⟩], []⟩ 1 = none
    ∧ getTrustScore ⟨[⟨"A", -100000⟩, ⟨"B", -100000⟩], [⟨1, "C", 1000⟩],
        [⟨1, "A", true⟩, ⟨1, "B", false⟩], [], [⟨"A", 0, 0⟩, ⟨"B", 40, 0⟩], []⟩ 1 none =
      .ok (round1 ((trueVotes ⟨[⟨"A", -100000⟩, ⟨"B", -100000⟩], [⟨1, "C", 1000⟩],
        [⟨1, "A", true⟩, ⟨1, "B", false⟩], [], [⟨"A", 0, 0⟩, ⟨"B", 40, 0⟩], []⟩ 1 : ℚ)
          / ((trueVotes ⟨[⟨"A", -100000⟩, ⟨"B", -100000⟩], [⟨1, "C", 1000⟩],
        [⟨1, "A", true⟩, ⟨1, "B", false⟩], [], [⟨"A", 0, 0⟩, ⟨"B", 40, 0⟩], []⟩ 1
          + falseVotes ⟨[⟨"A", -100000⟩, ⟨"B", -100000⟩], [⟨1, "C", 1000⟩],
        [⟨1, "A", true⟩, ⟨1, "B", false⟩], [], [⟨"A", 0, 0⟩, ⟨"B", 40, 0⟩], []⟩ 1 : ℕ) : ℚ) * 100))
        (trueVotes ⟨[⟨"A", -100000⟩, ⟨"B", -100000⟩], [⟨1, "C", 1000⟩],
        [⟨1, "A", true⟩, ⟨1, "B", false⟩], [], [⟨"A", 0, 0⟩, ⟨"B", 40, 0⟩], []⟩ 1
          + falseVotes ⟨[⟨"A", -100000⟩, ⟨"B", -100000⟩], [⟨1, "C", 1000⟩],
        [⟨1, "A", true⟩, ⟨1, "B", false⟩], [], [⟨"A", 0, 0⟩, ⟨"B", 40, 0⟩], []⟩ 1) false :=
  ⟨by decide, spec_C1_unweighted_score _ 1 (by decide) (by decide)⟩

/-- C7: a rumor selected by the sweep whose true count equals its false
count is finalized with outcome true; in particular a rumor with no votes is
finalized with trust score 50, outcome true and zero total votes. -/
theorem spec_C7_tie_break (st : State) (now : Int) (r : Rumor)
    (hmem : r ∈ selectExpired st now) (hnd : (st.rumors.map Rumor.id).Nodup) :
    ((countVotes (st.votes.filter (fun v => v.rumorId == r.id))).1 =
        (countVotes (st.votes.filter (fun v => v.rumorId == r.id))).2 →
      (lookupFin (finalizeExpiredRumors st now) r.id).map FinalizedScore.outcome = some true)
    ∧ (st.votes.filter (fun v => v.rumorId == r.id) = [] →
      lookupFin (finalizeExpiredRumors st now) r.id = some ⟨r.id, 50, 0, true⟩) := by
  have hpw : (selectExpired st now).Pairwise (fun a b => a.id ≠ b.id) := by
    have hsub : List.Sublist ((selectExpired st now).map Rumor.id) (st.rumors.map Rumor.id) :=
      List.Sublist.map Rumor.id (List.filter_sublist st.rumors)
    have : ((selectExpired st now).map Rumor.id).Nodup := List.Nodup.sublist hsub hnd
    exact (List.pairwise_map.mp this)
  have hrow : lookupFin (finalizeExpiredRumors st now) r.id = some (finRow st.votes r) :=
    sweepGo_lookupFin_of_mem r (selectExpired st now) hpw hmem st
  constructor
  · intro htie
    rw [hrow]
    unfold finRow
    simp only [Option.map_some]
    rw [htie]
    simp
  · intro hempty
    rw [hrow]
    unfold finRow
    rw [hempty]
    rfl

theorem lookupFin_finalizeRumor_isSome (st : State) (x : Rumor) (i : Nat)
    (h : (lookupFin st i).isSome = true) : (lookupFin (finalizeRumor st x) i).isSome = true := by
  by_cases hxi : x.id = i
  · subst hxi
    rw [lookupFin_finalizeRumor_self]
    rfl
  · rw [lookupFin_finalizeRumor_ne st x i hxi]
    exact h

theorem sweepGo_lookupFin_isSome (i : Nat) (l : List Rumor) :
    ∀ st : State, ((∃ x ∈ l, x.id = i) ∨ (lookupFin st i).isSome = true) →
      (lookupFin (sweepGo (fun _ => none) st l) i).isSome = true := by
  induction l with
  | nil =>
      intro st h
      rcases h with ⟨x, hx, _⟩ | h
      · cases hx
      · exact h
  | cons x rest ih =>
      intro st h
      show (lookupFin (sweepGo (fun _ => none) (finalizeRumor st x) rest) i).isSome = true
      apply ih
      rcases h with ⟨y, hy, hyi⟩ | hsome
      · rcases List.mem_cons.mp hy with h1 | h2
        · right
          subst h1
          subst hyi
          rw [lookupFin_finalizeRumor_self]
          rfl
        · exact Or.inl ⟨y, h2, hyi⟩
      · exact Or.inr (lookupFin_finalizeRumor_isSome st x i hsome)

/-- C6 counterexample.  First scenario: two expired unfinalized rumors, and
processing of rumor 1 fails before its finalized-score INSERT — the
exception escapes the loop (no per-rumor try/catch), so rumor 2 is not
finalized in that sweep, although the same sweep without the failure
finalizes it.  Second scenario: a single expired rumor whose processing
fails at the cache DELETE, after its finalized-score INSERT committed — the
rumor ends finalized anyway and is no longer selected, so it is never
retried. -/
theorem spec_C6_cex :
    finalizeSweepFailing ⟨[], [⟨1, "A", 0⟩, ⟨2, "A", 0⟩], [], [], [], []⟩ 100
        (fun n => if n == 1 then some 0 else none) =
      ⟨[], [⟨1, "A", 0⟩, ⟨2, "A", 0⟩], [], [], [], []⟩
    ∧ lookupFin (finalizeSweepFailing ⟨[], [⟨1, "A", 0⟩, ⟨2, "A", 0⟩], [], [], [], []⟩ 100
        (fun n => if n == 1 then some 0 else none)) 2 = none
    ∧ lookupFin (finalizeExpiredRumors ⟨[], [⟨1, "A", 0⟩, ⟨2, "A", 0⟩], [], [], [], []⟩ 100) 2 =
        some ⟨2, 50, 0, true⟩
    ∧ lookupFin (finalizeSweepFailing ⟨[], [⟨1, "A", 0⟩], [], [], [], []⟩ 100
        (fun n => if n == 1 then some 1 else none)) 1 = some ⟨1, 50, 0, true⟩
    ∧ selectExpired (finalizeSweepFailing ⟨[], [⟨1, "A", 0⟩], [], [], [], []⟩ 100
        (fun n => if n == 1 then some 1 else none)) 100 = [] :=
  ⟨rfl, rfl, rfl, rfl, rfl⟩

/-- C6 amended: the sweep has no per-claim error handling, so a store
failure while processing one claim aborts the rest of the sweep, and the
failed claim's fate depends on the failure point.  If the failure strikes
before the claim's finalized-score INSERT (write 0, which also covers the
votes SELECT), the claim remains unfinalized, is still selected, and a
later failure-free sweep finalizes it; if it strikes after the INSERT
committed (the cache invalidation, write 1, or the audit append, write 2),
the claim is left finalized and is never selected again. -/
theorem spec_C6_sweep_failure (st : State) (now : Int) (fails : Nat → Option Nat) (r : Rumor)
    (hmem : r ∈ selectExpired st now) (hnd : (st.rumors.map Rumor.id).Nodup) :
    (fails r.id = some 0 →
      lookupFin (finalizeSweepFailing st now fails) r.id = none
      ∧ r ∈ selectExpired (finalizeSweepFailing st now fails) now
      ∧ ∃ g, lookupFin (finalizeExpiredRumors (finalizeSweepFailing st now fails) now) r.id = some g)
    ∧ ((fails r.id = some 1 ∨ fails r.id = some 2) →
      (∀ x ∈ selectExpired st now, x.id ≠ r.id → fails x.id = none) →
      lookupFin (finalizeSweepFailing st now fails) r.id = some (finRow st.votes r)
      ∧ r ∉ selectExpired (finalizeSweepFailing st now fails) now) := by
  have hmem' := List.mem_filter.mp hmem
  obtain ⟨hr, hcond⟩ := hmem'
  rw [Bool.and_eq_true] at hcond
  have hnone : lookupFin st r.id = none := Option.isNone_iff_eq_none.mp hcond.2
  constructor
  · intro hf
    have h1 : lookupFin (finalizeSweepFailing st now fails) r.id = none :=
      sweepGo_lookupFin_none_of_fails fails r.id hf _ st hnone
    have h2 : r ∈ selectExpired (finalizeSweepFailing st now fails) now := by
      apply List.mem_filter.mpr
      constructor
      · unfold finalizeSweepFailing
        rw [sweepGo_rumors]
        exact hr
      · rw [Bool.and_eq_true]
        exact ⟨hcond.1, Option.isNone_iff_eq_none.mpr h1⟩
    refine ⟨h1, h2, ?_⟩
    have h3 := sweepGo_lookupFin_isSome r.id
      (selectExpired (finalizeSweepFailing st now fails) now)
      (finalizeSweepFailing st now fails) (Or.inl ⟨r, h2, rfl⟩)
    exact Option.isSome_iff_exists.mp h3
  · intro hf honly
    have hpw : (selectExpired st now).Pairwise (fun a b => a.id ≠ b.id) := by
      have hsub : List.Sublist ((selectExpired st now).map Rumor.id) (st.rumors.map Rumor.id) :=
        List.Sublist.map Rumor.id (List.filter_sublist st.rumors)
      have hnd' : ((selectExpired st now).map Rumor.id).Nodup := List.Nodup.sublist hsub hnd
      exact List.pairwise_map.mp hnd'
    have hsome : lookupFin (finalizeSweepFailing st now fails) r.id = some (finRow st.votes r) := by
      rcases hf with hf1 | hf2
      · exact sweepGo_lookupFin_some_of_late_fail fails r 1 hf1 (by omega)
          (selectExpired st now) hpw hmem honly st
      · exact sweepGo_lookupFin_some_of_late_fail fails r 2 hf2 (by omega)
          (selectExpired st now) hpw hmem honly st
    refine ⟨hsome, ?_⟩
    intro hmem2
    have hcond2 := (List.mem_filter.mp hmem2).2
    rw [Bool.and_eq_true] at hcond2
    rw [Option.isNone_iff_eq_none.mp hcond2.2] at hsome
    exact Option.noConfusion hsome

/-- Concrete instance discharging the hypotheses of the C6 theorem, for both
failure points: a pre-INSERT failure on rumor 1 leaves it unfinalized, still
selected, and finalized by the next failure-free sweep; a post-INSERT
failure on rumor 1 leaves it finalized and no longer selected. -/
theorem spec_C6_witness :
    (lookupFin (finalizeSweepFailing ⟨[], [⟨1, "A", 0⟩, ⟨2, "A", 0⟩], [], [], [], []⟩ 100
        (fun n => if n == 1 then some 0 else none)) 1 = none
      ∧ (⟨1, "A", 0⟩ : Rumor) ∈ selectExpired
          (finalizeSweepFailing ⟨[], [⟨1, "A", 0⟩, ⟨2, "A", 0⟩], [], [], [], []⟩ 100
            (fun n => if n == 1 then some 0 else none)) 100
      ∧ ∃ g, lookupFin (finalizeExpiredRumors
          (finalizeSweepFailing ⟨[], [⟨1, "A", 0⟩, ⟨2, "A", 0⟩], [], [], [], []⟩ 100
            (fun n => if n == 1 then some 0 else none)) 100) 1 = some g)
    ∧ (lookupFin (finalizeSweepFailing ⟨[], [⟨1, "A", 0⟩, ⟨2, "A", 0⟩], [], [], [], []⟩ 100
        (fun n => if n == 1 then some 1 else none)) 1 =
          some (finRow ([] : List Vote) ⟨1, "A", 0⟩)
      ∧ (⟨1, "A", 0⟩ : Rumor) ∉ selectExpired
          (finalizeSweepFailing ⟨[], [⟨1, "A", 0⟩, ⟨2, "A", 0⟩], [], [], [], []⟩ 100
            (fun n => if n == 1 then some 1 else none)) 100) :=
  ⟨(spec_C6_sweep_failure ⟨[], [⟨1, "A", 0⟩, ⟨2, "A", 0⟩], [], [], [], []⟩ 100
      (fun n => if n == 1 then some 0 else none) ⟨1, "A", 0⟩ (by decide) (by decide)).1 (by decide),
   (spec_C6_sweep_failure ⟨[], [⟨1, "A", 0⟩, ⟨2, "A", 0⟩], [], [], [], []⟩ 100
      (fun n => if n == 1 then some 1 else none) ⟨1, "A", 0⟩ (by decide) (by decide)).2
      (Or.inl (by decide)) (by decide)⟩

/-- The full deletion write sequence leaves exactly the finalized rows of
other rumors, in order. -/
theorem deleteClaimGo_finalized (st : State) (j : Nat) (creator : String) (now : Int) :
    (deleteClaimGo st j creator now none).finalized =
      st.finalized.filter (fun g => g.rumorId != j) := by
  unfold deleteClaimGo
  simp only [show ∀ k : Nat, ((none : Option Nat) == some k) = false from fun _ => rfl,
    Bool.false_eq_true, if_false]
  split
  · simp [addPenalty, upsertCache, delCache, delCacheMany, getReputationAtTime_finalized]
  · simp [delCache, delCacheMany]

/-- C4 counterexample: the admin reset endpoint removes a FinalizedOutcome
row although its claim is not deleted: with the hard-coded key it clears the
whole finalized_scores table while the rumors table is untouched. -/
theorem spec_C4_cex :
    lookupFin ⟨[], [⟨1, "A", 0⟩], [], [⟨1, 50, 0, true⟩], [], []⟩ 1 = some ⟨1, 50, 0, true⟩
    ∧ findRumor (adminResetFinalized ⟨[], [⟨1, "A", 0⟩], [], [⟨1, 50, 0, true⟩], [], []⟩
        "reset-2026-feb") 1 = some ⟨1, "A", 0⟩
    ∧ lookupFin (adminResetFinalized ⟨[], [⟨1, "A", 0⟩], [], [⟨1, 50, 0, true⟩], [], []⟩
        "reset-2026-feb") 1 = none :=
  ⟨rfl, rfl, rfl⟩

/-- C4 amended: a FinalizedOutcome row is never updated: every further score
request returns exactly the stored trust score and vote total with
finalized=true, and the row survives vote submissions, finalization sweeps,
reputation reads, deletions of other claims and admin resets with a wrong
key unchanged; it is removed only by deleting its claim (the cascade path)
or by the admin reset endpoint invoked with the hard-coded key, which clears
every finalized row. -/
theorem spec_C4_finalized_immutable (st : State) (i : Nat) (f : FinalizedScore)
    (h : lookupFin st i = some f) :
    (∀ requesting, getTrustScore st i requesting = .ok f.trustScore f.totalVotes true)
    ∧ (∀ j pk v s now, lookupFin (submitVote st j pk v s now).2 i = some f)
    ∧ (∀ now, lookupFin (finalizeExpiredRumors st now) i = some f)
    ∧ (∀ pk now, lookupFin (getReputationAtTime st pk now).2 i = some f)
    ∧ (∀ j creator now, j ≠ i → lookupFin (deleteClaimGo st j creator now none) i = some f)
    ∧ (∀ key, key ≠ "reset-2026-feb" → lookupFin (adminResetFinalized st key) i = some f) := by
  refine ⟨?_, ?_, ?_, ?_, ?_, ?_⟩
  · intro requesting
    unfold getTrustScore
    rw [h]
  · intro j pk v s now
    unfold lookupFin
    rw [submitVote_finalized]
    exact h
  · intro now
    unfold finalizeExpiredRumors
    have hl : ∀ x ∈ selectExpired st now, x.id ≠ i := by
      intro x hx
      have hxmem := List.mem_filter.mp hx
      rw [Bool.and_eq_true] at hxmem
      intro he
      rw [he] at hxmem
      rw [Option.isNone_iff_eq_none.mp hxmem.2.2] at h
      exact Option.noConfusion h
    rw [sweepGo_lookupFin_preserved _ i _ hl st]
    exact h
  · intro pk now
    unfold lookupFin
    rw [getReputationAtTime_finalized]
    exact h
  · intro j creator now hji
    unfold lookupFin
    rw [deleteClaimGo_finalized]
    rw [find?_filter_of_imp _ _ _ ?_]
    · exact h
    · intro x hxi
      simp only [beq_iff_eq] at hxi
      simp only [hxi, bne_iff_ne, ne_eq, decide_eq_true_eq]
      exact Ne.symm hji
  · intro key hkey
    unfold adminResetFinalized
    rw [if_neg (by simpa using hkey)]
    exact h

/-- Concrete instance discharging the hypotheses of the C4 theorem. -/
theorem spec_C4_witness :
    getTrustScore ⟨[⟨"A", 0⟩], [⟨1, "A", 0⟩, ⟨2, "A", 0⟩], [], [⟨1, 50, 0, true⟩], [], []⟩ 1 none =
      .ok 50 0 true
    ∧ lookupFin (submitVote ⟨[⟨"A", 0⟩], [⟨1, "A", 0⟩, ⟨2, "A", 0⟩], [], [⟨1, 50, 0, true⟩], [], []⟩
        2 "A" true true 100000).2 1 = some ⟨1, 50, 0, true⟩
    ∧ lookupFin (finalizeExpiredRumors
        ⟨[⟨"A", 0⟩], [⟨1, "A", 0⟩, ⟨2, "A", 0⟩], [], [⟨1, 50, 0, true⟩], [], []⟩ 100) 1 =
        some ⟨1, 50, 0, true⟩
    ∧ lookupFin (getReputationAtTime
        ⟨[⟨"A", 0⟩], [⟨1, "A", 0⟩, ⟨2, "A", 0⟩], [], [⟨1, 50, 0, true⟩], [], []⟩ "A" 0).2 1 =
        some ⟨1, 50, 0, true⟩
    ∧ lookupFin (deleteClaimGo
        ⟨[⟨"A", 0⟩], [⟨1, "A", 0⟩, ⟨2, "A", 0⟩], [], [⟨1, 50, 0, true⟩], [], []⟩ 2 "A" 0 none) 1 =
        some ⟨1, 50, 0, true⟩
    ∧ lookupFin (adminResetFinalized
        ⟨[⟨"A", 0⟩], [⟨1, "A", 0⟩, ⟨2, "A", 0⟩], [], [⟨1, 50, 0, true⟩], [], []⟩ "nope") 1 =
        some ⟨1, 50, 0, true⟩ := by
  have hm := spec_C4_finalized_immutable
    ⟨[⟨"A", 0⟩], [⟨1, "A", 0⟩, ⟨2, "A", 0⟩], [], [⟨1, 50, 0, true⟩], [], []⟩ 1 ⟨1, 50, 0, true⟩ rfl
  exact ⟨hm.1 none, hm.2.1 2 "A" true true 100000, hm.2.2.1 100, hm.2.2.2.1 "A" 0,
    hm.2.2.2.2.1 2 "A" 0 (by decide), hm.2.2.2.2.2 "nope" (by decide)⟩

/-- C5 counterexample: the deletion handler runs its writes without a
transaction.  On a state with a claim finalized false, the authorization
check passes, yet a failure at write 2 leaves a visible state in which the
claim, its votes and its finalized row are gone while the creator penalty
row (written last) does not exist: a partial state distinct from both the
initial and the final state. -/
theorem spec_C5_cex :
    deleteClaim ⟨[⟨"A", 0⟩, ⟨"B", 0⟩], [⟨1, "A", 100⟩], [⟨1, "B", true⟩],
        [⟨1, 100, 1, false⟩], [], []⟩ 1 "A" true 200 =
      .ok (deleteClaimGo ⟨[⟨"A", 0⟩, ⟨"B", 0⟩], [⟨1, "A", 100⟩], [⟨1, "B", true⟩],
        [⟨1, 100, 1, false⟩], [], []⟩ 1 "A" 200 none)
    ∧ findRumor (deleteClaimGo ⟨[⟨"A", 0⟩, ⟨"B", 0⟩], [⟨1, "A", 100⟩], [⟨1, "B", true⟩],
        [⟨1, 100, 1, false⟩], [], []⟩ 1 "A" 200 (some 2)) 1 = none
    ∧ (deleteClaimGo ⟨[⟨"A", 0⟩, ⟨"B", 0⟩], [⟨1, "A", 100⟩], [⟨1, "B", true⟩],
        [⟨1, 100, 1, false⟩], [], []⟩ 1 "A" 200 (some 2)).penalties = []
    ∧ (deleteClaimGo ⟨[⟨"A", 0⟩, ⟨"B", 0⟩], [⟨1, "A", 100⟩], [⟨1, "B", true⟩],
        [⟨1, 100, 1, false⟩], [], []⟩ 1 "A" 200 none).penalties = [⟨"A", -(2 / 10)⟩]
    ∧ deleteClaimGo ⟨[⟨"A", 0⟩, ⟨"B", 0⟩], [⟨1, "A", 100⟩], [⟨1, "B", true⟩],
        [⟨1, 100, 1, false⟩], [], []⟩ 1 "A" 200 (some 2) ≠
      ⟨[⟨"A", 0⟩, ⟨"B", 0⟩], [⟨1, "A", 100⟩], [⟨1, "B", true⟩], [⟨1, 100, 1, false⟩], [], []⟩
    ∧ deleteClaimGo ⟨[⟨"A", 0⟩, ⟨"B", 0⟩], [⟨1, "A", 100⟩], [⟨1, "B", true⟩],
        [⟨1, 100, 1, false⟩], [], []⟩ 1 "A" 200 (some 2) ≠
      deleteClaimGo ⟨[⟨"A", 0⟩, ⟨"B", 0⟩], [⟨1, "A", 100⟩], [⟨1, "B", true⟩],
        [⟨1, 100, 1, false⟩], [], []⟩ 1 "A" 200 none := by
  refine ⟨rfl, rfl, rfl, rfl, ?_, ?_⟩
  · intro h
    exact absurd (congrArg State.rumors h) (by decide)
  · intro h
    exact absurd (congrArg State.penalties h) (by decide)

/-- C5 amended: deleteClaim's writes are sequential and non-transactional;
after the authorization check passes, a failure mid-sequence leaves every
earlier write applied — for a claim finalized with outcome false, failure at
write 2 leaves the claim deleted with no penalty row, though the full
sequence records one. -/
theorem spec_C5_no_transaction (st : State) (i : Nat) (creator : String) (now : Int)
    (f : FinalizedScore) (r : Rumor)
    (hfin : lookupFin st i = some f) (hout : f.outcome = false)
    (hr : findRumor st i = some r) (hcr : r.creator = creator) :
    deleteClaim st i creator true now = .ok (deleteClaimGo st i creator now none)
    ∧ findRumor (deleteClaimGo st i creator now (some 2)) i = none
    ∧ (deleteClaimGo st i creator now (some 2)).penalties = st.penalties
    ∧ (deleteClaimGo st i creator now none).penalties =
        st.penalties ++ [⟨creator, -(2 / 10)⟩] := by
  refine ⟨?_, ?_, (deleteClaimGo_stop2 st i creator now).2.2.2.2,
    deleteClaimGo_penalties_finFalse st i creator now f hfin hout⟩
  · unfold deleteClaim
    rw [hr]
    simp [hcr]
  · unfold findRumor
    rw [(deleteClaimGo_stop2 st i creator now).1]
    rw [List.find?_eq_none]
    intro x hx
    have hxmem := List.mem_filter.mp hx
    simp only [bne_iff_ne, ne_eq, decide_eq_true_eq] at hxmem
    simp [hxmem.2]

/-- Concrete instance discharging the hypotheses of the C5 theorem. -/
theorem spec_C5_witness :
    deleteClaim ⟨[⟨"A", 0⟩], [⟨2, "A", 100⟩], [], [⟨2, 0, 0, false⟩], [], []⟩ 2 "A" true 200 =
      .ok (deleteClaimGo ⟨[⟨"A", 0⟩], [⟨2, "A", 100⟩], [], [⟨2, 0, 0, false⟩], [], []⟩ 2 "A" 200 none)
    ∧ findRumor (deleteClaimGo ⟨[⟨"A", 0⟩], [⟨2, "A", 100⟩], [], [⟨2, 0, 0, false⟩], [], []⟩
        2 "A" 200 (some 2)) 2 = none
    ∧ (deleteClaimGo ⟨[⟨"A", 0⟩], [⟨2, "A", 100⟩], [], [⟨2, 0, 0, false⟩], [], []⟩
        2 "A" 200 (some 2)).penalties =
        (⟨[⟨"A", 0⟩], [⟨2, "A", 100⟩], [], [⟨2, 0, 0, false⟩], [], []⟩ : State).penalties
    ∧ (deleteClaimGo ⟨[⟨"A", 0⟩], [⟨2, "A", 100⟩], [], [⟨2, 0, 0, false⟩], [], []⟩
        2 "A" 200 none).penalties =
        (⟨[⟨"A", 0⟩], [⟨2, "A", 100⟩], [], [⟨2, 0, 0, false⟩], [], []⟩ : State).penalties ++
          [⟨"A", -(2 / 10)⟩] :=
  spec_C5_no_transaction ⟨[⟨"A", 0⟩], [⟨2, "A", 100⟩], [], [⟨2, 0, 0, false⟩], [], []⟩
    2 "A" 200 ⟨2, 0, 0, false⟩ ⟨2, "A", 100⟩ rfl rfl rfl rfl

/-- Concrete instance discharging the hypotheses of the C7 theorem: one
expired rumor with no votes, finalized as (50, true, 0). -/
theorem spec_C7_witness :
    (⟨1, "A", 50⟩ : Rumor) ∈ selectExpired ⟨[⟨"A", 0⟩], [⟨1, "A", 50⟩], [], [], [], []⟩ 100
    ∧ lookupFin (finalizeExpiredRumors ⟨[⟨"A", 0⟩], [⟨1, "A", 50⟩], [], [], [], []⟩ 100) 1 =
        some ⟨1, 50, 0, true⟩ :=
  ⟨by decide,
    (spec_C7_tie_break ⟨[⟨"A", 0⟩], [⟨1, "A", 50⟩], [], [], [], []⟩ 100 ⟨1, "A", 50⟩
      (by decide) (by decide)).2 (by decide)⟩


/-- C3: deleting a claim finalized with outcome false writes a permanent
-0.2 penalty row for its creator; the row persists across any number of
subsequent operations (vote submissions, finalization sweeps — including
the cache invalidations they perform — reputation reads and admin resets),
and every later recomputation of the creator's reputation equals the
penalty-free recomputed value minus 0.2. -/
theorem spec_C3_penalty_durability (st : State) (i : Nat) (creator : String) (now : Int)
    (f : FinalizedScore) (r : Rumor)
    (hfin : lookupFin st i = some f) (hout : f.outcome = false)
    (hr : findRumor st i = some r) (hcr : r.creator = creator)
    (hnopen : st.penalties.filter (fun p => p.publicKey == creator) = []) :
    deleteClaim st i creator true now = .ok (deleteClaimGo st i creator now none)
    ∧ (⟨creator, -(2 / 10)⟩ : Penalty) ∈ (deleteClaimGo st i creator now none).penalties
    ∧ ∀ st2, Reach (deleteClaimGo st i creator now none) st2 →
        ((⟨creator, -(2 / 10)⟩ : Penalty) ∈ st2.penalties
         ∧ recomputedRep st2 creator = baseRep st2 creator - 2 / 10) := by
  have hpen := deleteClaimGo_penalties_finFalse st i creator now f hfin hout
  refine ⟨?_, ?_, ?_⟩
  · unfold deleteClaim
    rw [hr]
    simp [hcr]
  · rw [hpen]
    simp
  · intro st2 hreach
    have hp : st2.penalties = st.penalties ++ [⟨creator, -(2 / 10)⟩] := by
      rw [reach_penalties hreach, hpen]
    constructor
    · rw [hp]
      simp
    · have hsum : penaltySum st2 creator = -(2 / 10) := by
        unfold penaltySum
        rw [hp, List.filter_append, hnopen]
        simp
      rw [recomputedRep_eq_round1_base_add, hsum,
        round1_base_add_tenth _ _ _ (-2) (baseRep_eq_int_div_ten st2 creator) (by norm_num)]
      ring

/-- Concrete instance discharging the hypotheses of the C3 theorem; the
reachable state is instantiated with the post-deletion state itself. -/
theorem spec_C3_witness :
    deleteClaim ⟨[⟨"A", 0⟩, ⟨"B", 0⟩], [⟨3, "A", 100⟩], [⟨3, "B", false⟩],
        [⟨3, 0, 1, false⟩], [], []⟩ 3 "A" true 200 =
      .ok (deleteClaimGo ⟨[⟨"A", 0⟩, ⟨"B", 0⟩], [⟨3, "A", 100⟩], [⟨3, "B", false⟩],
        [⟨3, 0, 1, false⟩], [], []⟩ 3 "A" 200 none)
    ∧ (⟨"A", -(2 / 10)⟩ : Penalty) ∈ (deleteClaimGo ⟨[⟨"A", 0⟩, ⟨"B", 0⟩], [⟨3, "A", 100⟩],
        [⟨3, "B", false⟩], [⟨3, 0, 1, false⟩], [], []⟩ 3 "A" 200 none).penalties
    ∧ recomputedRep (deleteClaimGo ⟨[⟨"A", 0⟩, ⟨"B", 0⟩], [⟨3, "A", 100⟩], [⟨3, "B", false⟩],
        [⟨3, 0, 1, false⟩], [], []⟩ 3 "A" 200 none) "A" =
      baseRep (deleteClaimGo ⟨[⟨"A", 0⟩, ⟨"B", 0⟩], [⟨3, "A", 100⟩], [⟨3, "B", false⟩],
        [⟨3, 0, 1, false⟩], [], []⟩ 3 "A" 200 none) "A" - 2 / 10 := by
  have hm := spec_C3_penalty_durability ⟨[⟨"A", 0⟩, ⟨"B", 0⟩], [⟨3, "A", 100⟩], [⟨3, "B", false⟩],
    [⟨3, 0, 1, false⟩], [], []⟩ 3 "A" 200 ⟨3, 0, 1, false⟩ ⟨3, "A", 100⟩ rfl rfl rfl rfl rfl
  exact ⟨hm.1, hm.2.1, (hm.2.2 _ Relation.ReflTransGen.refl).2⟩
